import Mathlib

/-!
Verification of the response-cache middleware with stampede protection
(src/lib/middleware/cache.ts and the middleware variant embedded in
src/lib/middleware/access-control.ts, lines 112-127).

The middleware is shallowly embedded as a pure function from a request
context, an external key-value store, and an opaque downstream handler
(`next`, the generation step) to a result, an updated store, and a trace
of store operations.  External collaborators that are not part of this
repository's source (the xxhash64 function, JSON serialization, wall
clock) are parameters of the embedding, collected in `Env`.
-/

/-- Payload produced by the generation step (`Data` in src/types).
Only the fields the middleware touches are modelled: an opaque content
and the `lastBuildDate` stamp written at cache-write time. -/
structure Data where
  content : String
  lastBuildDate : Option String
deriving DecidableEq, Repr

/-- Request/response context (the parts of the hono `ctx` the middleware
reads or writes): request path and query parameters, response status and
headers, and the context variables `data`, `cacheKey`, `cacheControlKey`. -/
structure Ctx where
  path : String
  queries : List (String × String)
  status : Option Nat := none
  headers : List (String × String) := []
  data : Option Data := none
  cacheKey : Option String := none
  cacheControlKey : Option String := none
deriving DecidableEq, Repr

/-- Errors that can escape the middleware: its own
RequestInProgressError, or an arbitrary error raised by the downstream
generation step (tagged by an opaque code). -/
inductive MWError where
  | requestInProgress (msg : String)
  | generation (code : Nat)
deriving DecidableEq, Repr

/-- One observable store / delegation operation, in execution order. -/
inductive Op where
  | get (key : String) (result : Option String)
  | set (key value : String) (ttl : Nat) (ok : Bool)
  | callNext (dataPresent : Bool)
deriving DecidableEq, Repr

/-- The external key-value store, newest entry first. -/
abbrev Store := List (String × String)

/-- Read a key: the most recent write wins. -/
def storeGet (s : Store) (k : String) : Option String :=
  (s.find? (fun p => p.1 == k)).map (·.2)

/-- Write a key (TTLs are recorded in the operation trace; expiry between
the requests of a scenario is not modelled). -/
def storePut (s : Store) (k v : String) : Store := (k, v) :: s

/-- First-match query-parameter lookup (hono's `ctx.req.query(name)`). -/
def qlookup (qs : List (String × String)) (name : String) : Option String :=
  (qs.find? (fun p => p.1 == name)).map (·.2)

/-- First-match response-header lookup (`ctx.res.headers.get(name)`). -/
def hdrGet (hs : List (String × String)) (name : String) : Option String :=
  (hs.find? (fun p => p.1 == name)).map (·.2)

/-- JavaScript truthiness of a `string | undefined` value: `undefined`
and the empty string are falsy. -/
def truthy : Option String → Bool
  | none => false
  | some s => !(s == "")

/-- The static bypass list (cache.ts line 9). -/
def bypassList : List String := ["/", "/robots.txt", "/logo.png", "/favicon.ico"]

/-- `ctx.req.query('format') || 'rss'` (cache.ts line 36): the default is
substituted when the parameter is absent or the empty string. -/
def formatOrRss : Option String → String
  | some f => if f = "" then "rss" else f
  | none => "rss"

/-- `ctx.req.query('limit') ? ':' + limit : ''` (cache.ts line 36): a
falsy (absent or empty) limit contributes nothing. -/
def limitPart : Option String → String
  | some l => if l = "" then "" else ":" ++ l
  | none => ""

/-- The fingerprint input (cache.ts line 36). -/
def requestKeyOf (path : String) (fmt limit : Option String) : String :=
  path ++ ":" ++ formatOrRss fmt ++ limitPart limit

/-- Namespace prefix of the data key (cache.ts line 38). -/
def dataKeyBase : String := "rsshub:koa-redis-cache:"

/-- Namespace prefix of the control key (cache.ts line 39). -/
def controlKeyBase : String := "rsshub:path-requested:"

/-- DataKey: prefix plus the xxhash64 of the fingerprint input. -/
def dataKeyOf (h64 : String → String) (path : String) (fmt limit : Option String) : String :=
  dataKeyBase ++ h64 (requestKeyOf path fmt limit)

/-- ControlKey: the other prefix over the same fingerprint. -/
def controlKeyOf (h64 : String → String) (path : String) (fmt limit : Option String) : String :=
  controlKeyBase ++ h64 (requestKeyOf path fmt limit)

/-- The request's `format` query parameter. -/
def reqFormat (ctx : Ctx) : Option String := qlookup ctx.queries "format"

/-- The request's `limit` query parameter. -/
def reqLimit (ctx : Ctx) : Option String := qlookup ctx.queries "limit"

/-- The data key of a request (cache.ts line 38). -/
def ctxDataKey (h64 : String → String) (ctx : Ctx) : String :=
  dataKeyOf h64 ctx.path (reqFormat ctx) (reqLimit ctx)

/-- The control key of a request (cache.ts line 39). -/
def ctxControlKey (h64 : String → String) (ctx : Ctx) : String :=
  controlKeyOf h64 ctx.path (reqFormat ctx) (reqLimit ctx)

/-- Outcome of a follower wait loop: success after a number of sleeps, or
a RequestInProgressError timeout. -/
inductive WaitOutcome where
  | success (sleeps : Nat)
  | timeout
deriving DecidableEq, Repr

namespace Cache

/-- Poll interval of waitForRequest in cache.ts line 18 (milliseconds):
3000 under NODE_ENV=test, else 6000. -/
def pollIntervalMs (isTest : Bool) : Nat := if isTest then 3000 else 6000

/-- Retry budget of waitForRequest in cache.ts line 16: 1 under
NODE_ENV=test, else the constant 10. -/
def retryBudget (isTest : Bool) : Nat := if isTest then 1 else 10

/-- The loop of cache.ts lines 17-22: while the budget is positive, sleep
one poll interval, then read the control key (the i-th read is `obs i`);
return on any value other than "1", otherwise decrement.  A success after
checking index `i` has performed `i + 1` sleeps. -/
def waitLoop (obs : Nat → Option String) : Nat → Nat → WaitOutcome
  | 0, _ => .timeout
  | b + 1, i => if obs i ≠ some "1" then .success (i + 1) else waitLoop obs b (i + 1)

/-- waitForRequest of cache.ts lines 15-26, over the sequence `obs` of
control-key values the successive polls observe. -/
def waitForRequest (isTest : Bool) (obs : Nat → Option String) : WaitOutcome :=
  waitLoop obs (retryBudget isTest) 0

/-- Trace-producing form of the same loop, used inside the middleware:
returns whether the wait succeeded together with the get operations it
performed. -/
def waitPollOps (ck : String) (obs : Nat → Option String) : Nat → Nat → Bool × List Op
  | 0, _ => (false, [])
  | b + 1, i =>
    let v := obs i
    if v ≠ some "1" then (true, [Op.get ck v])
    else
      let r := waitPollOps ck obs b (i + 1)
      (r.1, Op.get ck v :: r.2)

end Cache

namespace CacheV2

/-- Poll interval of the waitForRequest variant at access-control.ts
line 113 (milliseconds): 1000 under NODE_ENV=test, else 500. -/
def waitTime (isTest : Bool) : Nat := if isTest then 1000 else 500

/-- Ceiling division on naturals, `Math.ceil (a / b)` for positive `b`. -/
def ceilDiv (a b : Nat) : Nat := (a + b - 1) / b

/-- access-control.ts line 115: `Math.ceil (requestTimeout * 1000 / waitTime)`
with `requestTimeout` in seconds. -/
def maxRetries (isTest : Bool) (requestTimeout : Nat) : Nat :=
  ceilDiv (requestTimeout * 1000) (waitTime isTest)

/-- The loop of access-control.ts lines 118-125: while the budget is
positive, read the control key first, return on any value other than "1",
otherwise sleep one interval and decrement.  A success at check index `i`
has performed `i` sleeps. -/
def waitLoop (obs : Nat → Option String) : Nat → Nat → WaitOutcome
  | 0, _ => .timeout
  | b + 1, i => if obs i ≠ some "1" then .success i else waitLoop obs b (i + 1)

/-- waitForRequest of access-control.ts lines 112-127. -/
def waitForRequest (isTest : Bool) (requestTimeout : Nat) (obs : Nat → Option String) : WaitOutcome :=
  waitLoop obs (maxRetries isTest requestTimeout) 0

end CacheV2

namespace SpecWait

/-- Modelled from the spec: the WaitStrategy algorithm of spec section 4.4
("compute maxRetries = ceil(timeoutMs / pollIntervalMs).  Loop: if
isInProgress(controlKey) is false, return immediately (success).
Otherwise sleep pollIntervalMs, decrement the retry budget, and repeat.
If the budget reaches zero while still in progress, fail with a
RequestInProgressTimeout condition.").  This definition follows the
spec's words and is compared against the source loops above. -/
def loop (obs : Nat → Option String) : Nat → Nat → WaitOutcome
  | 0, _ => .timeout
  | b + 1, i => if obs i ≠ some "1" then .success i else loop obs b (i + 1)

/-- Modelled from the spec: run the WaitStrategy with the claimed retry
budget `ceil(timeoutMs / pollIntervalMs)`. -/
def run (timeoutMs pollMs : Nat) (obs : Nat → Option String) : WaitOutcome :=
  loop obs (CacheV2.ceilDiv timeoutMs pollMs) 0

end SpecWait

/-- External collaborators and configuration the middleware closes over:
the xxhash64 function, JSON serialization, the config values
`cache.requestTimeout` and `cache.routeExpire` (seconds), the NODE_ENV
test flag, cache availability, the control-key values observed by wait
polls (the store may be concurrently updated while a follower sleeps),
and the current UTC time string. -/
structure Env where
  h64 : String → String
  stringify : Data → String
  parse : String → Data
  requestTimeout : Nat
  routeExpire : Nat
  isTest : Bool
  available : Bool
  pollObs : Nat → Option String
  now : String

/-- Message of the RequestInProgressError thrown on wait timeout. -/
def waitMsg : String := "This path is currently fetching, please come back later!"

/-- Context mutation of the cache-hit branch (cache.ts lines 47-49). -/
def hitCtx (env : Env) (ctx : Ctx) (v : String) : Ctx :=
  { ctx with
    status := some 200
    headers := ("RSSHub-Cache-Status", "HIT") :: ctx.headers
    data := some (env.parse v) }

/-- Context mutation before delegating on a miss (cache.ts lines 55-56). -/
def missCtx (ctx : Ctx) (key ck : String) : Ctx :=
  { ctx with cacheKey := some key, cacheControlKey := some ck }

/-- cache.ts line 67: stamp `lastBuildDate` with the current time. -/
def stampData (now : String) (d : Data) : Data := { d with lastBuildDate := some now }

/-- The miss branch of the middleware (cache.ts lines 54-72): claim the
control key, delegate to the generation step, conditionally write the
payload back, and release the control key.  `setOk n` tells whether the
n-th store write of this run takes effect (a failed write is absorbed by
the cache module and only recorded in the trace). -/
def missPath (env : Env) (next : Ctx → Except MWError Ctx) (setOk : Nat → Bool)
    (ctx : Ctx) (store : Store) (key ck : String) (pre : List Op) :
    Except MWError Ctx × Store × List Op :=
  let store1 := if setOk 0 then storePut store ck "1" else store
  let ctx1 := missCtx ctx key ck
  let t1 := pre ++ [Op.set ck "1" env.requestTimeout (setOk 0), Op.callNext ctx1.data.isSome]
  match next ctx1 with
  | .error e =>
    (.error e, (if setOk 1 then storePut store1 ck "0" else store1),
      t1 ++ [Op.set ck "0" env.requestTimeout (setOk 1)])
  | .ok c2 =>
    match c2.data with
    | some d =>
      if hdrGet c2.headers "Cache-Control" = some "no-cache" then
        (.ok c2, (if setOk 1 then storePut store1 ck "0" else store1),
          t1 ++ [Op.set ck "0" env.requestTimeout (setOk 1)])
      else
        let d1 := stampData env.now d
        let c3 := { c2 with data := some d1 }
        let payload := env.stringify d1
        let store2 := if setOk 1 then storePut store1 key payload else store1
        let store3 := if setOk 2 then storePut store2 ck "0" else store2
        (.ok c3, store3,
          t1 ++ [Op.set key payload env.routeExpire (setOk 1),
                 Op.set ck "0" env.requestTimeout (setOk 2)])
    | none =>
      (.ok c2, (if setOk 1 then storePut store1 ck "0" else store1),
        t1 ++ [Op.set ck "0" env.requestTimeout (setOk 1)])

/-- The middleware of cache.ts lines 28-73.  Returns the request outcome,
the final store, and the trace of store operations and delegations in
execution order. -/
def middlewareRun (env : Env) (next : Ctx → Except MWError Ctx) (setOk : Nat → Bool)
    (ctx : Ctx) (store : Store) : Except MWError Ctx × Store × List Op :=
  if env.available = false ∨ ctx.path ∈ bypassList then
    (next ctx, store, [Op.callNext ctx.data.isSome])
  else
    let key := ctxDataKey env.h64 ctx
    let ck := ctxControlKey env.h64 ctx
    let v0 := storeGet store ck
    let w :=
      if v0 = some "1" then Cache.waitPollOps ck env.pollObs (Cache.retryBudget env.isTest) 0
      else (true, [])
    let pre0 := Op.get ck v0 :: w.2
    if w.1 = false then
      (.error (.requestInProgress waitMsg), store, pre0)
    else
      let value := storeGet store key
      let pre1 := pre0 ++ [Op.get key value]
      match value with
      | some v =>
        if v = "" then missPath env next setOk ctx store key ck pre1
        else (next (hitCtx env ctx v), store, pre1 ++ [Op.callNext (hitCtx env ctx v).data.isSome])
      | none => missPath env next setOk ctx store key ck pre1

/-- The store writes of a trace: (key, value, ttl) triples in order. -/
def setOps (t : List Op) : List (String × String × Nat) :=
  t.filterMap fun op =>
    match op with
    | Op.set k v ttl _ => some (k, v, ttl)
    | _ => none

/-- The writes of a trace that target a given control key. -/
def ctrlSets (t : List Op) (ck : String) : List (String × Nat) :=
  t.filterMap fun op =>
    match op with
    | Op.set k v ttl _ => if k = ck then some (v, ttl) else none
    | _ => none

/-- The delegations of a trace, each recording whether a payload was
already attached when the downstream handler ran (the downstream chain
regenerates only when none is). -/
def genCalls (t : List Op) : List Bool :=
  t.filterMap fun op =>
    match op with
    | Op.callNext b => some b
    | _ => none

/-- A control key that stays "1" for the first six polls and is released
afterwards. -/
def obsAt6 : Nat → Option String := fun i => if i < 6 then some "1" else some "0"

/-- A control key that is never released. -/
def obsAll1 : Nat → Option String := fun _ => some "1"

/-- Modelled from the spec: the downstream generation chain invoked through
`next` (the route handlers and template middleware, which are not under
src/) performs the expensive generation only when no payload is attached
to the context, and otherwise renders the attached payload unchanged
("HIT: mark the response as a cache hit, attach the cached payload,
terminal").  On generation it attaches payload `d` and response headers
`hdrs`. -/
def genStep (d : Data) (hdrs : List (String × String)) : Ctx → Except MWError Ctx :=
  fun c =>
    match c.data with
    | some _ => .ok c
    | none => .ok { c with data := some d, headers := hdrs ++ c.headers }

/-- Concrete fixtures used by the witness theorems below. -/
def dW : Data := { content := "payload", lastBuildDate := none }

def stringifyW : Data → String := fun d => d.content ++ "|" ++ d.lastBuildDate.getD ""

def parseW : String → Data := fun s =>
  if s = "payload|NOW" then { content := "payload", lastBuildDate := some "NOW" }
  else { content := s, lastBuildDate := none }

def envW : Env :=
  { h64 := id, stringify := stringifyW, parse := parseW
    requestTimeout := 30, routeExpire := 3600, isTest := false
    available := true, pollObs := fun _ => some "0", now := "NOW" }

def ctxW : Ctx := { path := "/feed", queries := [] }

def nextErrW : Ctx → Except MWError Ctx := fun _ => .error (.generation 7)

def nextOkW : Ctx → Except MWError Ctx := fun c => .ok { c with data := some dW }

def nextIdW : Ctx → Except MWError Ctx := fun c => .ok c

def c2W : Ctx :=
  { ctxW with
    cacheKey := some (ctxDataKey envW.h64 ctxW)
    cacheControlKey := some (ctxControlKey envW.h64 ctxW)
    data := some dW }

def setOkFailW : Nat → Bool := fun n => n != 1

def ctxA : Ctx := { path := "/feed", queries := [("format", "atom"), ("x", "1")] }

def ctxB : Ctx := { path := "/feed", queries := [("format", "atom"), ("x", "2")] }

def ctxC : Ctx := { path := "/feed", queries := [("format", "rss")] }

def ctxRoot : Ctx := { path := "/", queries := [] }

def ctxE1 : Ctx := { path := "/feed", queries := [("format", ""), ("limit", "")] }

def ctxE2 : Ctx := { path := "/feed", queries := [] }

/-! Helper lemmas -/

theorem storeGet_put_self (s : Store) (k v : String) :
    storeGet (storePut s k v) k = some v := by
  simp [storeGet, storePut, List.find?]

theorem storeGet_put_ne (s : Store) (k k' v : String) (h : k' ≠ k) :
    storeGet (storePut s k' v) k = storeGet s k := by
  have hb : (k' == k) = false := beq_eq_false_iff_ne.mpr h
  simp [storeGet, storePut, List.find?, hb]

theorem dataKey_ne_controlKey (h64 : String → String) (p : String) (f l : Option String) :
    dataKeyOf h64 p f l ≠ controlKeyOf h64 p f l := by
  intro h
  have hlen := congrArg String.length h
  simp [dataKeyOf, controlKeyOf, dataKeyBase, controlKeyBase, String.length_append] at hlen
  exact absurd hlen (by decide)

theorem ctxKeys_ne (h64 : String → String) (ctx : Ctx) :
    ctxDataKey h64 ctx ≠ ctxControlKey h64 ctx :=
  dataKey_ne_controlKey h64 ctx.path (reqFormat ctx) (reqLimit ctx)

theorem waitPollOps_gets (ck : String) (obs : Nat → Option String) :
    ∀ b i, ∀ op ∈ (Cache.waitPollOps ck obs b i).2, ∃ v, op = Op.get ck v := by
  intro b
  induction b with
  | zero => intro i op hop; simp [Cache.waitPollOps] at hop
  | succ b ih =>
    intro i op hop
    simp only [Cache.waitPollOps] at hop
    by_cases hv : obs i ≠ some "1"
    · rw [if_pos hv] at hop
      simp at hop
      exact ⟨obs i, hop⟩
    · rw [if_neg hv] at hop
      simp at hop
      rcases hop with h | h
      · exact ⟨obs i, h⟩
      · exact ih (i + 1) op h

theorem setOps_of_gets (l : List Op) (h : ∀ op ∈ l, ∃ k v, op = Op.get k v) :
    setOps l = [] := by
  rw [setOps, List.filterMap_eq_nil_iff]
  intro op hop
  obtain ⟨k, v, rfl⟩ := h op hop
  rfl

theorem ctrlSets_of_gets (l : List Op) (ck : String) (h : ∀ op ∈ l, ∃ k v, op = Op.get k v) :
    ctrlSets l ck = [] := by
  rw [ctrlSets, List.filterMap_eq_nil_iff]
  intro op hop
  obtain ⟨k, v, rfl⟩ := h op hop
  rfl

theorem genCalls_of_gets (l : List Op) (h : ∀ op ∈ l, ∃ k v, op = Op.get k v) :
    genCalls l = [] := by
  rw [genCalls, List.filterMap_eq_nil_iff]
  intro op hop
  obtain ⟨k, v, rfl⟩ := h op hop
  rfl

theorem waitLoopA_timeout_iff (obs : Nat → Option String) :
    ∀ b i, Cache.waitLoop obs b i = .timeout ↔ ∀ k < b, obs (i + k) = some "1" := by
  intro b
  induction b with
  | zero => intro i; simp [Cache.waitLoop]
  | succ b ih =>
    intro i
    by_cases h : obs i = some "1"
    · rw [Cache.waitLoop, if_neg (by simp [h])]
      constructor
      · intro ht k hk
        rcases Nat.eq_zero_or_pos k with rfl | hpos
        · simpa using h
        · have := ((ih (i + 1)).mp ht) (k - 1) (by omega)
          have hidx : i + 1 + (k - 1) = i + k := by omega
          rwa [hidx] at this
      · intro hall
        refine (ih (i + 1)).mpr ?_
        intro k hk
        have := hall (k + 1) (by omega)
        have hidx : i + (k + 1) = i + 1 + k := by omega
        rwa [hidx] at this
    · rw [Cache.waitLoop, if_pos (by simp [h])]
      constructor
      · intro ht; cases ht
      · intro hall
        exact absurd (by simpa using hall 0 (by omega)) h

theorem waitLoopA_success_iff (obs : Nat → Option String) :
    ∀ b i j, Cache.waitLoop obs b i = .success (j + 1) ↔
      (i ≤ j ∧ j < i + b ∧ obs j ≠ some "1" ∧ ∀ k, i ≤ k → k < j → obs k = some "1") := by
  intro b
  induction b with
  | zero => intro i j; simp [Cache.waitLoop]; omega
  | succ b ih =>
    intro i j
    by_cases h : obs i = some "1"
    · rw [Cache.waitLoop, if_neg (by simp [h])]
      rw [ih (i + 1) j]
      constructor
      · rintro ⟨h1, h2, h3, h4⟩
        refine ⟨by omega, by omega, h3, ?_⟩
        intro k hk1 hk2
        rcases Nat.lt_or_ge k (i + 1) with hk | hk
        · have : k = i := by omega
          rwa [this]
        · exact h4 k hk hk2
      · rintro ⟨h1, h2, h3, h4⟩
        have hij : i ≠ j := by rintro rfl; exact h3 h
        refine ⟨by omega, by omega, h3, ?_⟩
        intro k hk1 hk2
        exact h4 k (by omega) hk2
    · rw [Cache.waitLoop, if_pos (by simp [h])]
      constructor
      · intro hs
        have : i = j := by
          have := WaitOutcome.success.inj hs
          omega
        subst this
        exact ⟨le_refl i, by omega, h, by omega⟩
      · rintro ⟨h1, h2, h3, h4⟩
        have : i = j := by
          by_contra hne
          exact h (h4 i (le_refl i) (by omega))
        rw [this]

theorem cacheV2_loop_eq_spec (obs : Nat → Option String) :
    ∀ b i, CacheV2.waitLoop obs b i = SpecWait.loop obs b i := by
  intro b
  induction b with
  | zero => intro i; rfl
  | succ b ih =>
    intro i
    rw [CacheV2.waitLoop, SpecWait.loop]
    by_cases h : obs i ≠ some "1"
    · rw [if_pos h, if_pos h]
    · rw [if_neg h, if_neg h]
      exact ih (i + 1)

/-- C1 counterexample: the claim states the follower wait loop computes its
budget as ceil(requestTimeoutMs / pollIntervalMs), checks ControlState
before sleeping, and times out exactly when that budget is exhausted.  With
requestTimeout = 30 s and the production poll interval of cache.ts
(6000 ms) that budget is ceil(30000/6000) = 5, so the claimed algorithm
raises RequestInProgressTimeout on a control key that still reads "1" at
the first six polls — but the loop actually written in cache.ts lines
15-26 (fixed budget 10, sleeping before each poll) succeeds after the
seventh sleep, and its budget 10 differs from the claimed 5. -/
theorem c1_counterexample :
    Cache.waitForRequest false obsAt6 = .success 7
    ∧ SpecWait.run (30 * 1000) (Cache.pollIntervalMs false) obsAt6 = .timeout
    ∧ Cache.retryBudget false ≠ CacheV2.ceilDiv (30 * 1000) (Cache.pollIntervalMs false) := by
  decide

/-- C1 (amended): the follower wait loop of cache.ts lines 15-26 uses a
fixed retry budget (10, or 1 when NODE_ENV=test) that does not depend on
requestTimeout; each iteration first sleeps one fixed poll interval, then
reads ControlState, returning success as soon as it is not "1"; it raises
RequestInProgressTimeout exactly when all budget-many polls observed "1".
A success whose j-th poll (0-based) was the first to observe a value other
than "1" has performed j+1 sleeps.  The second middleware variant in the
tree (access-control.ts lines 112-127) does implement the claimed
algorithm: it equals the spec's WaitStrategy at budget
ceil(requestTimeout*1000 / waitTime). -/
theorem c1_wait_loop_behavior (t : Bool) (obs : Nat → Option String) :
    (Cache.waitForRequest t obs = .timeout ↔ ∀ i < Cache.retryBudget t, obs i = some "1")
    ∧ (∀ j, Cache.waitForRequest t obs = .success (j + 1) ↔
        (j < Cache.retryBudget t ∧ obs j ≠ some "1" ∧ ∀ i < j, obs i = some "1"))
    ∧ (∀ rt, CacheV2.waitForRequest t rt obs
        = SpecWait.run (rt * 1000) (CacheV2.waitTime t) obs) := by
  refine ⟨?_, ?_, ?_⟩
  · rw [Cache.waitForRequest, waitLoopA_timeout_iff]
    constructor
    · intro h i hi; simpa using h i hi
    · intro h k hk; simpa using h k hk
  · intro j
    rw [Cache.waitForRequest, waitLoopA_success_iff]
    constructor
    · rintro ⟨_, h2, h3, h4⟩
      exact ⟨by omega, h3, fun i hi => h4 i (by omega) hi⟩
    · rintro ⟨h1, h2, h3⟩
      exact ⟨by omega, by omega, h2, fun k _ hk => h3 k hk⟩
  · intro rt
    rw [CacheV2.waitForRequest, SpecWait.run, cacheV2_loop_eq_spec]
    rfl

/-- C1 witness: the characterization evaluated at the production budget —
a never-released key times out, and obsAt6 succeeds after seven sleeps. -/
theorem c1_wait_loop_behavior_witness :
    Cache.waitForRequest false obsAll1 = .timeout
    ∧ Cache.waitForRequest false obsAt6 = .success (6 + 1) := by
  constructor
  · exact (c1_wait_loop_behavior false obsAll1).1.mpr (by decide)
  · exact ((c1_wait_loop_behavior false obsAt6).2.1 6).mpr (by decide)

theorem middleware_miss (env : Env) (next : Ctx → Except MWError Ctx) (setOk : Nat → Bool)
    (ctx : Ctx) (store : Store)
    (ha : env.available = true) (hb : ctx.path ∉ bypassList)
    (hw : storeGet store (ctxControlKey env.h64 ctx) = some "1" →
      (Cache.waitPollOps (ctxControlKey env.h64 ctx) env.pollObs (Cache.retryBudget env.isTest) 0).1 = true)
    (hv : truthy (storeGet store (ctxDataKey env.h64 ctx)) = false) :
    ∃ pre, (∀ op ∈ pre, ∃ k v, op = Op.get k v) ∧
      middlewareRun env next setOk ctx store =
        missPath env next setOk ctx store (ctxDataKey env.h64 ctx) (ctxControlKey env.h64 ctx) pre := by
  have hcond : ¬ (env.available = false ∨ ctx.path ∈ bypassList) := by
    simp [ha, hb]
  rw [middlewareRun, if_neg hcond]
  simp only []
  by_cases h1 : storeGet store (ctxControlKey env.h64 ctx) = some "1"
  · rw [if_pos h1]
    have hwt := hw h1
    rw [if_neg (by simp [hwt])]
    cases hval : storeGet store (ctxDataKey env.h64 ctx) with
    | none =>
      refine ⟨Op.get (ctxControlKey env.h64 ctx) (storeGet store (ctxControlKey env.h64 ctx))
          :: (Cache.waitPollOps (ctxControlKey env.h64 ctx) env.pollObs (Cache.retryBudget env.isTest) 0).2
          ++ [Op.get (ctxDataKey env.h64 ctx) none], ?_, ?_⟩
      · intro op hop
        rcases List.mem_append.mp hop with hop | hop
        · rcases List.mem_cons.mp hop with rfl | hop
          · exact ⟨_, _, rfl⟩
          · obtain ⟨v, rfl⟩ := waitPollOps_gets _ _ _ _ op hop
            exact ⟨_, _, rfl⟩
        · rcases List.mem_singleton.mp hop with rfl
          exact ⟨_, _, rfl⟩
      · rfl
    | some v =>
      rw [hval] at hv
      have hv' : v = "" := by simpa [truthy] using hv
      subst hv'
      refine ⟨Op.get (ctxControlKey env.h64 ctx) (storeGet store (ctxControlKey env.h64 ctx))
          :: (Cache.waitPollOps (ctxControlKey env.h64 ctx) env.pollObs (Cache.retryBudget env.isTest) 0).2
          ++ [Op.get (ctxDataKey env.h64 ctx) (some "")], ?_, ?_⟩
      · intro op hop
        rcases List.mem_append.mp hop with hop | hop
        · rcases List.mem_cons.mp hop with rfl | hop
          · exact ⟨_, _, rfl⟩
          · obtain ⟨v, rfl⟩ := waitPollOps_gets _ _ _ _ op hop
            exact ⟨_, _, rfl⟩
        · rcases List.mem_singleton.mp hop with rfl
          exact ⟨_, _, rfl⟩
      · simp
  · rw [if_neg h1]
    rw [if_neg (by simp)]
    cases hval : storeGet store (ctxDataKey env.h64 ctx) with
    | none =>
      refine ⟨Op.get (ctxControlKey env.h64 ctx) (storeGet store (ctxControlKey env.h64 ctx))
          :: [] ++ [Op.get (ctxDataKey env.h64 ctx) none], ?_, ?_⟩
      · intro op hop
        rcases List.mem_append.mp hop with hop | hop
        · rcases List.mem_cons.mp hop with rfl | hop
          · exact ⟨_, _, rfl⟩
          · cases hop
        · rcases List.mem_singleton.mp hop with rfl
          exact ⟨_, _, rfl⟩
      · rfl
    | some v =>
      rw [hval] at hv
      have hv' : v = "" := by simpa [truthy] using hv
      subst hv'
      refine ⟨Op.get (ctxControlKey env.h64 ctx) (storeGet store (ctxControlKey env.h64 ctx))
          :: [] ++ [Op.get (ctxDataKey env.h64 ctx) (some "")], ?_, ?_⟩
      · intro op hop
        rcases List.mem_append.mp hop with hop | hop
        · rcases List.mem_cons.mp hop with rfl | hop
          · exact ⟨_, _, rfl⟩
          · cases hop
        · rcases List.mem_singleton.mp hop with rfl
          exact ⟨_, _, rfl⟩
      · simp

theorem missPath_error (env : Env) (next : Ctx → Except MWError Ctx) (setOk : Nat → Bool)
    (ctx : Ctx) (store : Store) (key ck : String) (pre : List Op) (e : MWError)
    (hn : next (missCtx ctx key ck) = .error e) :
    missPath env next setOk ctx store key ck pre =
      (.error e,
       (if setOk 1 then storePut (if setOk 0 then storePut store ck "1" else store) ck "0"
        else (if setOk 0 then storePut store ck "1" else store)),
       pre ++ [Op.set ck "1" env.requestTimeout (setOk 0),
               Op.callNext (missCtx ctx key ck).data.isSome,
               Op.set ck "0" env.requestTimeout (setOk 1)]) := by
  simp [missPath, hn]

theorem missPath_ok_cacheable (env : Env) (next : Ctx → Except MWError Ctx) (setOk : Nat → Bool)
    (ctx : Ctx) (store : Store) (key ck : String) (pre : List Op) (c2 : Ctx) (d : Data)
    (hn : next (missCtx ctx key ck) = .ok c2) (hd : c2.data = some d)
    (hcc : hdrGet c2.headers "Cache-Control" ≠ some "no-cache") :
    missPath env next setOk ctx store key ck pre =
      (.ok { c2 with data := some (stampData env.now d) },
       (if setOk 2 then
          storePut (if setOk 1 then
              storePut (if setOk 0 then storePut store ck "1" else store) key
                (env.stringify (stampData env.now d))
            else (if setOk 0 then storePut store ck "1" else store)) ck "0"
        else (if setOk 1 then
            storePut (if setOk 0 then storePut store ck "1" else store) key
              (env.stringify (stampData env.now d))
          else (if setOk 0 then storePut store ck "1" else store))),
       pre ++ [Op.set ck "1" env.requestTimeout (setOk 0),
               Op.callNext (missCtx ctx key ck).data.isSome,
               Op.set key (env.stringify (stampData env.now d)) env.routeExpire (setOk 1),
               Op.set ck "0" env.requestTimeout (setOk 2)]) := by
  simp [missPath, hn, hd, if_neg hcc]

theorem missPath_ok_nocache (env : Env) (next : Ctx → Except MWError Ctx) (setOk : Nat → Bool)
    (ctx : Ctx) (store : Store) (key ck : String) (pre : List Op) (c2 : Ctx) (d : Data)
    (hn : next (missCtx ctx key ck) = .ok c2) (hd : c2.data = some d)
    (hcc : hdrGet c2.headers "Cache-Control" = some "no-cache") :
    missPath env next setOk ctx store key ck pre =
      (.ok c2,
       (if setOk 1 then storePut (if setOk 0 then storePut store ck "1" else store) ck "0"
        else (if setOk 0 then storePut store ck "1" else store)),
       pre ++ [Op.set ck "1" env.requestTimeout (setOk 0),
               Op.callNext (missCtx ctx key ck).data.isSome,
               Op.set ck "0" env.requestTimeout (setOk 1)]) := by
  simp [missPath, hn, hd, hcc]

theorem missPath_ok_nodata (env : Env) (next : Ctx → Except MWError Ctx) (setOk : Nat → Bool)
    (ctx : Ctx) (store : Store) (key ck : String) (pre : List Op) (c2 : Ctx)
    (hn : next (missCtx ctx key ck) = .ok c2) (hd : c2.data = none) :
    missPath env next setOk ctx store key ck pre =
      (.ok c2,
       (if setOk 1 then storePut (if setOk 0 then storePut store ck "1" else store) ck "0"
        else (if setOk 0 then storePut store ck "1" else store)),
       pre ++ [Op.set ck "1" env.requestTimeout (setOk 0),
               Op.callNext (missCtx ctx key ck).data.isSome,
               Op.set ck "0" env.requestTimeout (setOk 1)]) := by
  simp [missPath, hn, hd]

/-- C2: whenever the orchestrator has claimed ControlKey (i.e. the run
reaches the miss path) and the generation step returns — success,
non-cacheable success, empty success or error — the run's final store
operation is a write of "0" to ControlKey with the requestTimeout TTL,
and on the error path the caller receives the identical error raised by
the generation step, never a cache-layer error. -/
theorem c2_release_and_rethrow (env : Env) (next : Ctx → Except MWError Ctx) (setOk : Nat → Bool)
    (ctx : Ctx) (store : Store)
    (ha : env.available = true) (hb : ctx.path ∉ bypassList)
    (hw : storeGet store (ctxControlKey env.h64 ctx) = some "1" →
      (Cache.waitPollOps (ctxControlKey env.h64 ctx) env.pollObs (Cache.retryBudget env.isTest) 0).1 = true)
    (hv : truthy (storeGet store (ctxDataKey env.h64 ctx)) = false) :
    (∃ t b, (middlewareRun env next setOk ctx store).2.2
        = t ++ [Op.set (ctxControlKey env.h64 ctx) "0" env.requestTimeout b])
    ∧ (∀ e, next (missCtx ctx (ctxDataKey env.h64 ctx) (ctxControlKey env.h64 ctx)) = .error e →
        (middlewareRun env next setOk ctx store).1 = .error e) := by
  obtain ⟨pre, hpre, heq⟩ := middleware_miss env next setOk ctx store ha hb hw hv
  rw [heq]
  constructor
  · cases hn : next (missCtx ctx (ctxDataKey env.h64 ctx) (ctxControlKey env.h64 ctx)) with
    | error e =>
      rw [missPath_error env next setOk ctx store _ _ pre e hn]
      refine ⟨pre ++ [Op.set (ctxControlKey env.h64 ctx) "1" env.requestTimeout (setOk 0),
        Op.callNext (missCtx ctx (ctxDataKey env.h64 ctx) (ctxControlKey env.h64 ctx)).data.isSome],
        setOk 1, by simp⟩
    | ok c2 =>
      cases hd : c2.data with
      | some d =>
        by_cases hcc : hdrGet c2.headers "Cache-Control" = some "no-cache"
        · rw [missPath_ok_nocache env next setOk ctx store _ _ pre c2 d hn hd hcc]
          refine ⟨pre ++ [Op.set (ctxControlKey env.h64 ctx) "1" env.requestTimeout (setOk 0),
            Op.callNext (missCtx ctx (ctxDataKey env.h64 ctx) (ctxControlKey env.h64 ctx)).data.isSome],
            setOk 1, by simp⟩
        · rw [missPath_ok_cacheable env next setOk ctx store _ _ pre c2 d hn hd hcc]
          refine ⟨pre ++ [Op.set (ctxControlKey env.h64 ctx) "1" env.requestTimeout (setOk 0),
            Op.callNext (missCtx ctx (ctxDataKey env.h64 ctx) (ctxControlKey env.h64 ctx)).data.isSome,
            Op.set (ctxDataKey env.h64 ctx) (env.stringify (stampData env.now d)) env.routeExpire (setOk 1)],
            setOk 2, by simp⟩
      | none =>
        rw [missPath_ok_nodata env next setOk ctx store _ _ pre c2 hn hd]
        refine ⟨pre ++ [Op.set (ctxControlKey env.h64 ctx) "1" env.requestTimeout (setOk 0),
          Op.callNext (missCtx ctx (ctxDataKey env.h64 ctx) (ctxControlKey env.h64 ctx)).data.isSome],
          setOk 1, by simp⟩
  · intro e he
    rw [missPath_error env next setOk ctx store _ _ pre e he]

theorem setOps_append (l1 l2 : List Op) : setOps (l1 ++ l2) = setOps l1 ++ setOps l2 := by
  simp [setOps]

theorem middleware_trace_cases (env : Env) (next : Ctx → Except MWError Ctx) (setOk : Nat → Bool)
    (ctx : Ctx) (store : Store) :
    (∃ b, (middlewareRun env next setOk ctx store).2.2 = [Op.callNext b])
    ∨ (∀ op ∈ (middlewareRun env next setOk ctx store).2.2, ∃ k v, op = Op.get k v)
    ∨ (∃ pre b, (∀ op ∈ pre, ∃ k v, op = Op.get k v) ∧
        (middlewareRun env next setOk ctx store).2.2 = pre ++ [Op.callNext b])
    ∨ (∃ pre, (∀ op ∈ pre, ∃ k v, op = Op.get k v) ∧
        middlewareRun env next setOk ctx store =
          missPath env next setOk ctx store (ctxDataKey env.h64 ctx) (ctxControlKey env.h64 ctx) pre) := by
  by_cases hby : env.available = false ∨ ctx.path ∈ bypassList
  · left
    rw [middlewareRun, if_pos hby]
    exact ⟨_, rfl⟩
  · rw [middlewareRun, if_neg hby]
    simp only []
    by_cases h1 : storeGet store (ctxControlKey env.h64 ctx) = some "1"
    · rw [if_pos h1]
      by_cases hwb : (Cache.waitPollOps (ctxControlKey env.h64 ctx) env.pollObs
          (Cache.retryBudget env.isTest) 0).1 = false
      · right; left
        rw [if_pos hwb]
        intro op hop
        rcases List.mem_cons.mp hop with rfl | hop
        · exact ⟨_, _, rfl⟩
        · obtain ⟨v, rfl⟩ := waitPollOps_gets _ _ _ _ op hop
          exact ⟨_, _, rfl⟩
      · rw [if_neg hwb]
        have hgets : ∀ v', ∀ op ∈ Op.get (ctxControlKey env.h64 ctx) (storeGet store (ctxControlKey env.h64 ctx))
            :: (Cache.waitPollOps (ctxControlKey env.h64 ctx) env.pollObs (Cache.retryBudget env.isTest) 0).2
            ++ [Op.get (ctxDataKey env.h64 ctx) v'],
            ∃ k v, op = Op.get k v := by
          intro v' op hop
          rcases List.mem_append.mp hop with hop | hop
          · rcases List.mem_cons.mp hop with rfl | hop
            · exact ⟨_, _, rfl⟩
            · obtain ⟨v, rfl⟩ := waitPollOps_gets _ _ _ _ op hop
              exact ⟨_, _, rfl⟩
          · rcases List.mem_singleton.mp hop with rfl
            exact ⟨_, _, rfl⟩
        cases hval : storeGet store (ctxDataKey env.h64 ctx) with
        | none => exact Or.inr (Or.inr (Or.inr ⟨_, hgets none, rfl⟩))
        | some v =>
          by_cases hv0 : v = ""
          · subst hv0
            exact Or.inr (Or.inr (Or.inr ⟨_, hgets (some ""), by simp⟩))
          · refine Or.inr (Or.inr (Or.inl ⟨_, (hitCtx env ctx v).data.isSome,
              hgets (some v), ?_⟩))
            simp [hv0]
    · rw [if_neg h1, if_neg (by simp)]
      have hgets : ∀ v', ∀ op ∈ Op.get (ctxControlKey env.h64 ctx) (storeGet store (ctxControlKey env.h64 ctx))
          :: ([] : List Op) ++ [Op.get (ctxDataKey env.h64 ctx) v'],
          ∃ k v, op = Op.get k v := by
        intro v' op hop
        rcases List.mem_append.mp hop with hop | hop
        · rcases List.mem_cons.mp hop with rfl | hop
          · exact ⟨_, _, rfl⟩
          · cases hop
        · rcases List.mem_singleton.mp hop with rfl
          exact ⟨_, _, rfl⟩
      cases hval : storeGet store (ctxDataKey env.h64 ctx) with
      | none => exact Or.inr (Or.inr (Or.inr ⟨_, hgets none, rfl⟩))
      | some v =>
        by_cases hv0 : v = ""
        · subst hv0
          exact Or.inr (Or.inr (Or.inr ⟨_, hgets (some ""), by simp⟩))
        · refine Or.inr (Or.inr (Or.inl ⟨_, (hitCtx env ctx v).data.isSome,
            hgets (some v), ?_⟩))
          simp [hv0]

/-- C3: (only-if) on every run, any write to DataKey implies the
generation step returned successfully, produced a payload, and did not
mark the response "no-cache"; the value written is the stamped payload and
the TTL is routeExpire.  (if) on the miss path, when generation succeeds
with a payload and without "no-cache", the result carries the payload
stamped with lastBuildDate = the wall-clock value read at write time, and
the trace ends with the DataKey write (TTL routeExpire) immediately
followed by the ControlKey release. -/
theorem c3_conditional_write (env : Env) (next : Ctx → Except MWError Ctx) (setOk : Nat → Bool)
    (ctx : Ctx) (store : Store) :
    (∀ v ttl, (ctxDataKey env.h64 ctx, v, ttl) ∈ setOps (middlewareRun env next setOk ctx store).2.2 →
      ∃ c d, next (missCtx ctx (ctxDataKey env.h64 ctx) (ctxControlKey env.h64 ctx)) = .ok c
        ∧ c.data = some d ∧ hdrGet c.headers "Cache-Control" ≠ some "no-cache"
        ∧ v = env.stringify (stampData env.now d) ∧ ttl = env.routeExpire)
    ∧ (∀ c2 d, env.available = true → ctx.path ∉ bypassList →
        (storeGet store (ctxControlKey env.h64 ctx) = some "1" →
          (Cache.waitPollOps (ctxControlKey env.h64 ctx) env.pollObs (Cache.retryBudget env.isTest) 0).1 = true) →
        truthy (storeGet store (ctxDataKey env.h64 ctx)) = false →
        next (missCtx ctx (ctxDataKey env.h64 ctx) (ctxControlKey env.h64 ctx)) = .ok c2 →
        c2.data = some d → hdrGet c2.headers "Cache-Control" ≠ some "no-cache" →
        (middlewareRun env next setOk ctx store).1 = .ok { c2 with data := some (stampData env.now d) }
        ∧ ∃ t b b', (middlewareRun env next setOk ctx store).2.2
            = t ++ [Op.set (ctxDataKey env.h64 ctx) (env.stringify (stampData env.now d)) env.routeExpire b,
                    Op.set (ctxControlKey env.h64 ctx) "0" env.requestTimeout b']) := by
  constructor
  · intro v ttl hmem
    rcases middleware_trace_cases env next setOk ctx store with
      ⟨b, htr⟩ | hgets | ⟨pre, b, hpre, htr⟩ | ⟨pre, hpre, heq⟩
    · rw [htr] at hmem
      simp [setOps] at hmem
    · rw [setOps_of_gets _ hgets] at hmem
      cases hmem
    · rw [htr, setOps_append, setOps_of_gets pre hpre] at hmem
      simp [setOps] at hmem
    · rw [heq] at hmem
      cases hn : next (missCtx ctx (ctxDataKey env.h64 ctx) (ctxControlKey env.h64 ctx)) with
      | error e =>
        rw [missPath_error env next setOk ctx store _ _ pre e hn] at hmem
        rw [setOps_append, setOps_of_gets pre hpre] at hmem
        simp [setOps] at hmem
        rcases hmem with ⟨hk, _⟩ | ⟨hk, _⟩ <;>
          exact absurd hk (ctxKeys_ne env.h64 ctx)
      | ok c2 =>
        cases hd : c2.data with
        | some d =>
          by_cases hcc : hdrGet c2.headers "Cache-Control" = some "no-cache"
          · rw [missPath_ok_nocache env next setOk ctx store _ _ pre c2 d hn hd hcc] at hmem
            rw [setOps_append, setOps_of_gets pre hpre] at hmem
            simp [setOps] at hmem
            rcases hmem with ⟨hk, _⟩ | ⟨hk, _⟩ <;>
              exact absurd hk (ctxKeys_ne env.h64 ctx)
          · rw [missPath_ok_cacheable env next setOk ctx store _ _ pre c2 d hn hd hcc] at hmem
            rw [setOps_append, setOps_of_gets pre hpre] at hmem
            simp [setOps] at hmem
            rcases hmem with ⟨hk, _⟩ | ⟨hv, httl⟩ | ⟨hk, _⟩
            · exact absurd hk (ctxKeys_ne env.h64 ctx)
            · exact ⟨c2, d, rfl, hd, hcc, hv, httl⟩
            · exact absurd hk (ctxKeys_ne env.h64 ctx)
        | none =>
          rw [missPath_ok_nodata env next setOk ctx store _ _ pre c2 hn hd] at hmem
          rw [setOps_append, setOps_of_gets pre hpre] at hmem
          simp [setOps] at hmem
          rcases hmem with ⟨hk, _⟩ | ⟨hk, _⟩ <;>
            exact absurd hk (ctxKeys_ne env.h64 ctx)
  · intro c2 d ha hb hw hv hn hd hcc
    obtain ⟨pre, hpre, heq⟩ := middleware_miss env next setOk ctx store ha hb hw hv
    rw [heq, missPath_ok_cacheable env next setOk ctx store _ _ pre c2 d hn hd hcc]
    refine ⟨rfl, pre ++ [Op.set (ctxControlKey env.h64 ctx) "1" env.requestTimeout (setOk 0),
      Op.callNext (missCtx ctx (ctxDataKey env.h64 ctx) (ctxControlKey env.h64 ctx)).data.isSome],
      setOk 1, setOk 2, by simp⟩

theorem ctrlSets_append (l1 l2 : List Op) (ck : String) :
    ctrlSets (l1 ++ l2) ck = ctrlSets l1 ck ++ ctrlSets l2 ck := by
  simp [ctrlSets]

/-- C6: on every run the sequence of values the middleware writes to its
ControlKey is either empty or exactly "1" (claiming) followed by "0"
(releasing), both with the requestTimeout TTL, with the delegation to the
generation step strictly between the two writes; the middleware performs
no delete operation at all (its store interface as used has only get and
set), so over any sequence of runs ControlState follows
absent → "1" → "0" → "1" → "0" → …. -/
theorem c6_control_writes (env : Env) (next : Ctx → Except MWError Ctx) (setOk : Nat → Bool)
    (ctx : Ctx) (store : Store) :
    ctrlSets (middlewareRun env next setOk ctx store).2.2 (ctxControlKey env.h64 ctx) = []
    ∨ (ctrlSets (middlewareRun env next setOk ctx store).2.2 (ctxControlKey env.h64 ctx)
        = [("1", env.requestTimeout), ("0", env.requestTimeout)]
      ∧ ∃ t1 t2 t3 b1 b2 p, (middlewareRun env next setOk ctx store).2.2
          = t1 ++ Op.set (ctxControlKey env.h64 ctx) "1" env.requestTimeout b1 :: t2
            ++ Op.set (ctxControlKey env.h64 ctx) "0" env.requestTimeout b2 :: t3
        ∧ Op.callNext p ∈ t2) := by
  rcases middleware_trace_cases env next setOk ctx store with
    ⟨b, htr⟩ | hgets | ⟨pre, b, hpre, htr⟩ | ⟨pre, hpre, heq⟩
  · left
    rw [htr]
    simp [ctrlSets]
  · left
    exact ctrlSets_of_gets _ _ hgets
  · left
    rw [htr, ctrlSets_append, ctrlSets_of_gets pre _ hpre]
    simp [ctrlSets]
  · rw [heq]
    cases hn : next (missCtx ctx (ctxDataKey env.h64 ctx) (ctxControlKey env.h64 ctx)) with
    | error e =>
      rw [missPath_error env next setOk ctx store _ _ pre e hn]
      right
      constructor
      · rw [ctrlSets_append, ctrlSets_of_gets pre _ hpre]
        simp [ctrlSets]
      · exact ⟨pre, [Op.callNext (missCtx ctx (ctxDataKey env.h64 ctx) (ctxControlKey env.h64 ctx)).data.isSome],
          [], setOk 0, setOk 1, _, by simp, List.mem_singleton.mpr rfl⟩
    | ok c2 =>
      cases hd : c2.data with
      | some d =>
        by_cases hcc : hdrGet c2.headers "Cache-Control" = some "no-cache"
        · rw [missPath_ok_nocache env next setOk ctx store _ _ pre c2 d hn hd hcc]
          right
          constructor
          · rw [ctrlSets_append, ctrlSets_of_gets pre _ hpre]
            simp [ctrlSets]
          · exact ⟨pre, [Op.callNext (missCtx ctx (ctxDataKey env.h64 ctx) (ctxControlKey env.h64 ctx)).data.isSome],
              [], setOk 0, setOk 1, _, by simp, List.mem_singleton.mpr rfl⟩
        · rw [missPath_ok_cacheable env next setOk ctx store _ _ pre c2 d hn hd hcc]
          right
          constructor
          · rw [ctrlSets_append, ctrlSets_of_gets pre _ hpre]
            simp [ctrlSets, ctxKeys_ne env.h64 ctx]
          · exact ⟨pre, [Op.callNext (missCtx ctx (ctxDataKey env.h64 ctx) (ctxControlKey env.h64 ctx)).data.isSome,
              Op.set (ctxDataKey env.h64 ctx) (env.stringify (stampData env.now d)) env.routeExpire (setOk 1)],
              [], setOk 0, setOk 2, _, by simp, List.mem_cons_self _ _⟩
      | none =>
        rw [missPath_ok_nodata env next setOk ctx store _ _ pre c2 hn hd]
        right
        constructor
        · rw [ctrlSets_append, ctrlSets_of_gets pre _ hpre]
          simp [ctrlSets]
        · exact ⟨pre, [Op.callNext (missCtx ctx (ctxDataKey env.h64 ctx) (ctxControlKey env.h64 ctx)).data.isSome],
            [], setOk 0, setOk 1, _, by simp, List.mem_singleton.mpr rfl⟩

/-- C7: for a request whose path is in the bypass list, or one arriving
while the cache is unavailable, the middleware performs no store get or
set on any key — its whole trace is the single delegation — the store is
returned unchanged, and the result is exactly that of the generation
step on the untouched context. -/
theorem c7_bypass_frame (env : Env) (next : Ctx → Except MWError Ctx) (setOk : Nat → Bool)
    (ctx : Ctx) (store : Store)
    (h : ctx.path ∈ bypassList ∨ env.available = false) :
    middlewareRun env next setOk ctx store = (next ctx, store, [Op.callNext ctx.data.isSome]) := by
  rw [middlewareRun, if_pos h.symm]

/-- C8: if the store write to DataKey fails after a successful cacheable
generation (the cache module absorbs the failure rather than raising),
the request still completes successfully with the stamped generated
response, and DataKey is left unwritten. -/
theorem c8_failed_write_keeps_response (env : Env) (next : Ctx → Except MWError Ctx)
    (setOk : Nat → Bool) (ctx : Ctx) (store : Store) (c2 : Ctx) (d : Data)
    (ha : env.available = true) (hb : ctx.path ∉ bypassList)
    (hw : storeGet store (ctxControlKey env.h64 ctx) = some "1" →
      (Cache.waitPollOps (ctxControlKey env.h64 ctx) env.pollObs (Cache.retryBudget env.isTest) 0).1 = true)
    (hv : truthy (storeGet store (ctxDataKey env.h64 ctx)) = false)
    (hs : next (missCtx ctx (ctxDataKey env.h64 ctx) (ctxControlKey env.h64 ctx)) = .ok c2)
    (hd : c2.data = some d)
    (hcc : hdrGet c2.headers "Cache-Control" ≠ some "no-cache")
    (hf : setOk 1 = false) :
    (middlewareRun env next setOk ctx store).1 = .ok { c2 with data := some (stampData env.now d) }
    ∧ storeGet (middlewareRun env next setOk ctx store).2.1 (ctxDataKey env.h64 ctx)
        = storeGet store (ctxDataKey env.h64 ctx) := by
  obtain ⟨pre, hpre, heq⟩ := middleware_miss env next setOk ctx store ha hb hw hv
  rw [heq, missPath_ok_cacheable env next setOk ctx store _ _ pre c2 d hs hd hcc]
  have hne : ctxControlKey env.h64 ctx ≠ ctxDataKey env.h64 ctx := (ctxKeys_ne env.h64 ctx).symm
  refine ⟨rfl, ?_⟩
  by_cases h0 : setOk 0 <;> by_cases h2 : setOk 2 <;>
    simp [hf, h0, h2, storeGet_put_ne, hne]

/-- C9: if the generation step returns without raising but attaches no
payload, the middleware writes nothing to DataKey — so with DataKey
initially absent it remains absent and a subsequent identical request is
still a MISS — yet the run still ends by releasing ControlState to "0"
with the requestTimeout TTL. -/
theorem c9_no_payload_no_write (env : Env) (next : Ctx → Except MWError Ctx) (setOk : Nat → Bool)
    (ctx : Ctx) (store : Store) (c2 : Ctx)
    (ha : env.available = true) (hb : ctx.path ∉ bypassList)
    (hw : storeGet store (ctxControlKey env.h64 ctx) = some "1" →
      (Cache.waitPollOps (ctxControlKey env.h64 ctx) env.pollObs (Cache.retryBudget env.isTest) 0).1 = true)
    (hv : truthy (storeGet store (ctxDataKey env.h64 ctx)) = false)
    (hs : next (missCtx ctx (ctxDataKey env.h64 ctx) (ctxControlKey env.h64 ctx)) = .ok c2)
    (hd : c2.data = none) :
    (middlewareRun env next setOk ctx store).1 = .ok c2
    ∧ (∀ v ttl, (ctxDataKey env.h64 ctx, v, ttl) ∉ setOps (middlewareRun env next setOk ctx store).2.2)
    ∧ (∃ t b, (middlewareRun env next setOk ctx store).2.2
        = t ++ [Op.set (ctxControlKey env.h64 ctx) "0" env.requestTimeout b])
    ∧ (storeGet store (ctxDataKey env.h64 ctx) = none →
        storeGet (middlewareRun env next setOk ctx store).2.1 (ctxDataKey env.h64 ctx) = none) := by
  obtain ⟨pre, hpre, heq⟩ := middleware_miss env next setOk ctx store ha hb hw hv
  rw [heq, missPath_ok_nodata env next setOk ctx store _ _ pre c2 hs hd]
  have hne : ctxControlKey env.h64 ctx ≠ ctxDataKey env.h64 ctx := (ctxKeys_ne env.h64 ctx).symm
  refine ⟨rfl, ?_, ?_, ?_⟩
  · intro v ttl hmem
    rw [setOps_append, setOps_of_gets pre hpre] at hmem
    simp [setOps] at hmem
    rcases hmem with ⟨hk, _⟩ | ⟨hk, _⟩ <;>
      exact absurd hk (ctxKeys_ne env.h64 ctx)
  · exact ⟨pre ++ [Op.set (ctxControlKey env.h64 ctx) "1" env.requestTimeout (setOk 0),
      Op.callNext (missCtx ctx (ctxDataKey env.h64 ctx) (ctxControlKey env.h64 ctx)).data.isSome],
      setOk 1, by simp⟩
  · intro h0
    by_cases ho0 : setOk 0 <;> by_cases ho1 : setOk 1 <;>
      simp [ho0, ho1, storeGet_put_ne, hne, h0]

theorem string_append_cancel_left {a b c : String} (h : a ++ b = a ++ c) : b = c := by
  have := congrArg String.data h
  simp [String.data_append] at this
  exact String.ext this

theorem string_append_cancel_right {a b c : String} (h : a ++ c = b ++ c) : a = b := by
  have := congrArg String.data h
  simp [String.data_append] at this
  exact String.ext this

theorem requestKey_parts (p : String) (f1 l1 f2 l2 : Option String)
    (h : requestKeyOf p f1 l1 = requestKeyOf p f2 l2) :
    (limitPart l1 = limitPart l2 → formatOrRss f1 = formatOrRss f2)
    ∧ (formatOrRss f1 = formatOrRss f2 → limitPart l1 = limitPart l2) := by
  rw [requestKeyOf, requestKeyOf] at h
  constructor
  · intro hl
    rw [hl] at h
    exact string_append_cancel_left (string_append_cancel_right h)
  · intro hf
    rw [hf] at h
    exact string_append_cancel_left h

/-- C4: DataKey and ControlKey are pure functions of the request path, the
format parameter (default "rss" substituted for a falsy value) and the
optional limit parameter: agreement on these three makes both keys equal
(hence no other query parameter can affect either key); and, provided the
external 64-bit hash is collision-free on the inputs involved, changing
the effective format alone, or the effective limit alone, changes both
keys. -/
theorem c4_fingerprint_coupling (h : String → String) (ctx1 ctx2 : Ctx) :
    ((ctx1.path = ctx2.path →
      formatOrRss (reqFormat ctx1) = formatOrRss (reqFormat ctx2) →
      limitPart (reqLimit ctx1) = limitPart (reqLimit ctx2) →
      ctxDataKey h ctx1 = ctxDataKey h ctx2 ∧ ctxControlKey h ctx1 = ctxControlKey h ctx2))
    ∧ (Function.Injective h → ctx1.path = ctx2.path →
      limitPart (reqLimit ctx1) = limitPart (reqLimit ctx2) →
      formatOrRss (reqFormat ctx1) ≠ formatOrRss (reqFormat ctx2) →
      ctxDataKey h ctx1 ≠ ctxDataKey h ctx2 ∧ ctxControlKey h ctx1 ≠ ctxControlKey h ctx2)
    ∧ (Function.Injective h → ctx1.path = ctx2.path →
      formatOrRss (reqFormat ctx1) = formatOrRss (reqFormat ctx2) →
      limitPart (reqLimit ctx1) ≠ limitPart (reqLimit ctx2) →
      ctxDataKey h ctx1 ≠ ctxDataKey h ctx2 ∧ ctxControlKey h ctx1 ≠ ctxControlKey h ctx2) := by
  refine ⟨?_, ?_, ?_⟩
  · intro hp hf hl
    constructor <;>
      simp [ctxDataKey, ctxControlKey, dataKeyOf, controlKeyOf, requestKeyOf, hp, hf, hl]
  · intro hinj hp hl hf
    constructor
    · intro heq
      rw [ctxDataKey, ctxDataKey, dataKeyOf, dataKeyOf, hp] at heq
      have hk := hinj (string_append_cancel_left heq)
      exact hf ((requestKey_parts _ _ _ _ _ hk).1 hl)
    · intro heq
      rw [ctxControlKey, ctxControlKey, controlKeyOf, controlKeyOf, hp] at heq
      have hk := hinj (string_append_cancel_left heq)
      exact hf ((requestKey_parts _ _ _ _ _ hk).1 hl)
  · intro hinj hp hf hl
    constructor
    · intro heq
      rw [ctxDataKey, ctxDataKey, dataKeyOf, dataKeyOf, hp] at heq
      have hk := hinj (string_append_cancel_left heq)
      exact hl ((requestKey_parts _ _ _ _ _ hk).2 hf)
    · intro heq
      rw [ctxControlKey, ctxControlKey, controlKeyOf, controlKeyOf, hp] at heq
      have hk := hinj (string_append_cancel_left heq)
      exact hl ((requestKey_parts _ _ _ _ _ hk).2 hf)

/-- C10: an empty-string format parameter is treated like an absent one
(the default "rss" is substituted) and an empty-string limit parameter is
excluded from the fingerprint input, so requests whose format and limit
are each either empty or absent all share the same DataKey and
ControlKey. -/
theorem c10_empty_params (h : String → String) (ctx1 ctx2 : Ctx)
    (hp : ctx1.path = ctx2.path)
    (hf1 : reqFormat ctx1 = some "" ∨ reqFormat ctx1 = none)
    (hf2 : reqFormat ctx2 = some "" ∨ reqFormat ctx2 = none)
    (hl1 : reqLimit ctx1 = some "" ∨ reqLimit ctx1 = none)
    (hl2 : reqLimit ctx2 = some "" ∨ reqLimit ctx2 = none) :
    ctxDataKey h ctx1 = ctxDataKey h ctx2 ∧ ctxControlKey h ctx1 = ctxControlKey h ctx2 := by
  have hf : formatOrRss (reqFormat ctx1) = formatOrRss (reqFormat ctx2) := by
    rcases hf1 with h1 | h1 <;> rcases hf2 with h2 | h2 <;> simp [h1, h2, formatOrRss]
  have hl : limitPart (reqLimit ctx1) = limitPart (reqLimit ctx2) := by
    rcases hl1 with h1 | h1 <;> rcases hl2 with h2 | h2 <;> simp [h1, h2, limitPart]
  constructor <;>
    simp [ctxDataKey, ctxControlKey, dataKeyOf, controlKeyOf, requestKeyOf, hp, hf, hl]

theorem genCalls_append (l1 l2 : List Op) : genCalls (l1 ++ l2) = genCalls l1 ++ genCalls l2 := by
  simp [genCalls]

theorem middleware_hit (env : Env) (next : Ctx → Except MWError Ctx) (setOk : Nat → Bool)
    (ctx : Ctx) (store : Store)
    (ha : env.available = true) (hb : ctx.path ∉ bypassList)
    (hc : storeGet store (ctxControlKey env.h64 ctx) ≠ some "1")
    (v : String) (hval : storeGet store (ctxDataKey env.h64 ctx) = some v) (hv0 : v ≠ "") :
    middlewareRun env next setOk ctx store =
      (next (hitCtx env ctx v), store,
       [Op.get (ctxControlKey env.h64 ctx) (storeGet store (ctxControlKey env.h64 ctx)),
        Op.get (ctxDataKey env.h64 ctx) (some v),
        Op.callNext (hitCtx env ctx v).data.isSome]) := by
  rw [middlewareRun, if_neg (by simp [ha, hb])]
  simp only []
  rw [if_neg hc, if_neg (by simp), hval]
  simp [hv0]

/-- C5: starting from an empty store, a request is a MISS that invokes
generation (the downstream handler runs with no payload attached) and
returns the stamped payload; a second identical request against the
resulting store is a HIT: it returns the same stamped payload with
status 200 and the RSSHub-Cache-Status HIT header, and generation is not
invoked again (the downstream handler only ever runs with the cached
payload already attached). -/
theorem c5_miss_then_hit (env : Env) (ctx : Ctx) (d : Data) (hdrs : List (String × String))
    (ha : env.available = true) (hb : ctx.path ∉ bypassList) (hd0 : ctx.data = none)
    (hcc : hdrGet (hdrs ++ ctx.headers) "Cache-Control" ≠ some "no-cache")
    (hrt : env.parse (env.stringify (stampData env.now d)) = stampData env.now d)
    (hne : env.stringify (stampData env.now d) ≠ "") :
    (middlewareRun env (genStep d hdrs) (fun _ => true) ctx []).1
      = .ok { ctx with
              cacheKey := some (ctxDataKey env.h64 ctx)
              cacheControlKey := some (ctxControlKey env.h64 ctx)
              headers := hdrs ++ ctx.headers
              data := some (stampData env.now d) }
    ∧ false ∈ genCalls (middlewareRun env (genStep d hdrs) (fun _ => true) ctx []).2.2
    ∧ (middlewareRun env (genStep d hdrs) (fun _ => true) ctx
        (middlewareRun env (genStep d hdrs) (fun _ => true) ctx []).2.1).1
      = .ok { ctx with
              status := some 200
              headers := ("RSSHub-Cache-Status", "HIT") :: ctx.headers
              data := some (stampData env.now d) }
    ∧ false ∉ genCalls (middlewareRun env (genStep d hdrs) (fun _ => true) ctx
        (middlewareRun env (genStep d hdrs) (fun _ => true) ctx []).2.1).2.2 := by
  obtain ⟨pre, hpre, heq1⟩ := middleware_miss env (genStep d hdrs) (fun _ => true) ctx []
    ha hb (by simp [storeGet]) (by simp [storeGet, truthy])
  have hn1 : genStep d hdrs (missCtx ctx (ctxDataKey env.h64 ctx) (ctxControlKey env.h64 ctx))
      = .ok { ctx with
              cacheKey := some (ctxDataKey env.h64 ctx)
              cacheControlKey := some (ctxControlKey env.h64 ctx)
              data := some d
              headers := hdrs ++ ctx.headers } := by
    simp [genStep, missCtx, hd0]
  have hd2 : ({ ctx with
      cacheKey := some (ctxDataKey env.h64 ctx)
      cacheControlKey := some (ctxControlKey env.h64 ctx)
      data := some d
      headers := hdrs ++ ctx.headers } : Ctx).data = some d := rfl
  have hcc2 : hdrGet ({ ctx with
      cacheKey := some (ctxDataKey env.h64 ctx)
      cacheControlKey := some (ctxControlKey env.h64 ctx)
      data := some d
      headers := hdrs ++ ctx.headers } : Ctx).headers "Cache-Control"
      ≠ some "no-cache" := hcc
  rw [heq1, missPath_ok_cacheable env (genStep d hdrs) (fun _ => true) ctx [] _ _ pre _ d hn1 hd2 hcc2]
  have hckne : ctxControlKey env.h64 ctx ≠ ctxDataKey env.h64 ctx := (ctxKeys_ne env.h64 ctx).symm
  refine ⟨rfl, ?_, ?_, ?_⟩
  · rw [genCalls_append, genCalls_of_gets pre hpre]
    simp [genCalls, missCtx, hd0]
  · rw [middleware_hit env (genStep d hdrs) (fun _ => true) ctx _ ha hb
      (by simp [storeGet_put_self]) (env.stringify (stampData env.now d))
      (by simp [storeGet_put_self, storeGet_put_ne, hckne]) hne]
    simp [genStep, hitCtx, hrt]
  · rw [middleware_hit env (genStep d hdrs) (fun _ => true) ctx _ ha hb
      (by simp [storeGet_put_self]) (env.stringify (stampData env.now d))
      (by simp [storeGet_put_self, storeGet_put_ne, hckne]) hne]
    simp [genCalls, hitCtx]

/-- C2 witness: a failing generation step on an empty store — the trace
ends with the release write and the original error is returned. -/
theorem c2_witness :
    ctxW.path ∉ bypassList
    ∧ (∃ t b, (middlewareRun envW nextErrW (fun _ => true) ctxW []).2.2
        = t ++ [Op.set (ctxControlKey envW.h64 ctxW) "0" envW.requestTimeout b])
    ∧ (middlewareRun envW nextErrW (fun _ => true) ctxW []).1 = .error (.generation 7) :=
  ⟨by decide,
   (c2_release_and_rethrow envW nextErrW (fun _ => true) ctxW [] rfl (by decide)
      (by simp [storeGet]) rfl).1,
   (c2_release_and_rethrow envW nextErrW (fun _ => true) ctxW [] rfl (by decide)
      (by simp [storeGet]) rfl).2 (.generation 7) rfl⟩

/-- C3 witness: a cacheable generation on an empty store — the stamped
payload is returned and written with TTL routeExpire just before the
release. -/
theorem c3_witness :
    (middlewareRun envW nextOkW (fun _ => true) ctxW []).1
        = .ok { c2W with data := some (stampData envW.now dW) }
    ∧ ∃ t b b', (middlewareRun envW nextOkW (fun _ => true) ctxW []).2.2
        = t ++ [Op.set (ctxDataKey envW.h64 ctxW) (envW.stringify (stampData envW.now dW)) envW.routeExpire b,
                Op.set (ctxControlKey envW.h64 ctxW) "0" envW.requestTimeout b'] :=
  (c3_conditional_write envW nextOkW (fun _ => true) ctxW []).2 c2W dW rfl (by decide)
    (by simp [storeGet]) rfl rfl rfl (by decide)

/-- C4 witness: changing an ignored query parameter changes neither key;
changing the format changes both (with the identity as hash). -/
theorem c4_witness :
    (ctxDataKey id ctxA = ctxDataKey id ctxB ∧ ctxControlKey id ctxA = ctxControlKey id ctxB)
    ∧ (ctxDataKey id ctxA ≠ ctxDataKey id ctxC ∧ ctxControlKey id ctxA ≠ ctxControlKey id ctxC) :=
  ⟨(c4_fingerprint_coupling id ctxA ctxB).1 rfl (by decide) rfl,
   (c4_fingerprint_coupling id ctxA ctxC).2.1 (fun a b hab => hab) rfl rfl (by decide)⟩

/-- C5 witness: the miss/hit pair evaluated on concrete fixtures. -/
theorem c5_witness :
    (middlewareRun envW (genStep dW []) (fun _ => true) ctxW []).1
      = .ok { ctxW with
              cacheKey := some (ctxDataKey envW.h64 ctxW)
              cacheControlKey := some (ctxControlKey envW.h64 ctxW)
              headers := [] ++ ctxW.headers
              data := some (stampData envW.now dW) }
    ∧ false ∈ genCalls (middlewareRun envW (genStep dW []) (fun _ => true) ctxW []).2.2
    ∧ (middlewareRun envW (genStep dW []) (fun _ => true) ctxW
        (middlewareRun envW (genStep dW []) (fun _ => true) ctxW []).2.1).1
      = .ok { ctxW with
              status := some 200
              headers := ("RSSHub-Cache-Status", "HIT") :: ctxW.headers
              data := some (stampData envW.now dW) }
    ∧ false ∉ genCalls (middlewareRun envW (genStep dW []) (fun _ => true) ctxW
        (middlewareRun envW (genStep dW []) (fun _ => true) ctxW []).2.1).2.2 :=
  c5_miss_then_hit envW ctxW dW [] rfl (by decide) rfl (by decide) (by decide) (by decide)

/-- C7 witness: the root path is bypassed and delegated untouched. -/
theorem c7_witness :
    ctxRoot.path ∈ bypassList
    ∧ middlewareRun envW nextIdW (fun _ => true) ctxRoot []
        = (nextIdW ctxRoot, [], [Op.callNext ctxRoot.data.isSome]) :=
  ⟨by decide,
   c7_bypass_frame envW nextIdW (fun _ => true) ctxRoot [] (Or.inl (by decide))⟩

/-- C8 witness: with the DataKey write failing, the stamped response is
still returned and the store keeps no entry for DataKey. -/
theorem c8_witness :
    setOkFailW 1 = false
    ∧ (middlewareRun envW nextOkW setOkFailW ctxW []).1
        = .ok { c2W with data := some (stampData envW.now dW) }
    ∧ storeGet (middlewareRun envW nextOkW setOkFailW ctxW []).2.1 (ctxDataKey envW.h64 ctxW)
        = storeGet [] (ctxDataKey envW.h64 ctxW) :=
  ⟨rfl,
   (c8_failed_write_keeps_response envW nextOkW setOkFailW ctxW [] c2W dW rfl (by decide)
      (by simp [storeGet]) rfl rfl rfl (by decide) rfl).1,
   (c8_failed_write_keeps_response envW nextOkW setOkFailW ctxW [] c2W dW rfl (by decide)
      (by simp [storeGet]) rfl rfl rfl (by decide) rfl).2⟩

/-- C9 witness: a generation step that attaches no payload — the response
passes through, DataKey stays absent. -/
theorem c9_witness :
    (middlewareRun envW nextIdW (fun _ => true) ctxW []).1
        = .ok (missCtx ctxW (ctxDataKey envW.h64 ctxW) (ctxControlKey envW.h64 ctxW))
    ∧ (ctxDataKey envW.h64 ctxW, "x", 5)
        ∉ setOps (middlewareRun envW nextIdW (fun _ => true) ctxW []).2.2
    ∧ storeGet (middlewareRun envW nextIdW (fun _ => true) ctxW []).2.1 (ctxDataKey envW.h64 ctxW) = none :=
  ⟨(c9_no_payload_no_write envW nextIdW (fun _ => true) ctxW []
      (missCtx ctxW (ctxDataKey envW.h64 ctxW) (ctxControlKey envW.h64 ctxW))
      rfl (by decide) (by simp [storeGet]) rfl rfl rfl).1,
   (c9_no_payload_no_write envW nextIdW (fun _ => true) ctxW []
      (missCtx ctxW (ctxDataKey envW.h64 ctxW) (ctxControlKey envW.h64 ctxW))
      rfl (by decide) (by simp [storeGet]) rfl rfl rfl).2.1 "x" 5,
   (c9_no_payload_no_write envW nextIdW (fun _ => true) ctxW []
      (missCtx ctxW (ctxDataKey envW.h64 ctxW) (ctxControlKey envW.h64 ctxW))
      rfl (by decide) (by simp [storeGet]) rfl rfl rfl).2.2.2 rfl⟩

/-- C10 witness: format= and limit= set to the empty string yield the
same keys as omitting both parameters. -/
theorem c10_witness :
    ctxDataKey id ctxE1 = ctxDataKey id ctxE2 ∧ ctxControlKey id ctxE1 = ctxControlKey id ctxE2 :=
  c10_empty_params id ctxE1 ctxE2 rfl (Or.inl (by decide)) (Or.inr (by decide))
    (Or.inl (by decide)) (Or.inr (by decide))
